import Mathlib

/-!
Verification of the GeoPerfMonitor performance measurement and aggregation
engine. The definitions below are a shallow embedding of the TypeScript
source: JavaScript numbers are modelled as rationals (`ℚ`), JavaScript
strings as Lean `String`s (compared through their character lists),
JavaScript plain objects used as string-keyed records as association lists
with assignment-in-place semantics (`recordSet` / `recordGet`), promises
that can reject as `Except String`, and the asynchronous busy-signal world
of the idle waiter as explicit time-indexed boolean signals.
-/

namespace GeoPerf

/-- Lowercased character list of a string: the model of JavaScript
`s.toLowerCase()` applied before substring matching. -/
def lowerChars (s : String) : List Char :=
  s.data.map Char.toLower

/-- Model of JavaScript `hay.startsWith(needle)` on character lists:
`charsStartsWith hay needle` is true when `needle` is a prefix of `hay`. -/
def charsStartsWith : List Char → List Char → Bool
  | _, [] => true
  | [], _ :: _ => false
  | h :: t, n :: ns => decide (h = n) && charsStartsWith t ns

/-- Model of JavaScript `hay.includes(needle)` on character lists:
substring containment. -/
def charsContain : List Char → List Char → Bool
  | [], needle => needle.isEmpty
  | h :: t, needle => charsStartsWith (h :: t) needle || charsContain t needle

/-- Layer service type, from `MapLayer.type` in `types.ts`. -/
inductive LayerType where
  | feature
  | tile
  | mapImage
  | vectorTile
deriving DecidableEq

/-- MapLayer from `types.ts`: a logical, user-visible map layer. -/
structure MapLayer where
  id : String
  title : String
  url : String
  type : LayerType
  visible : Bool
  color : Option String := none
  excludeFromMetrics : Bool := false
deriving DecidableEq

/-- NetworkRequestMetric from `types.ts`: one completed or failed network
request. Numeric fields are JavaScript numbers, modelled as rationals. -/
structure NetworkRequestMetric where
  id : String
  url : String
  startTime : ℚ
  endTime : ℚ
  duration : ℚ
  status : ℚ
  size : ℚ := 0
deriving DecidableEq

/-- LayerPerformanceSummary from `types.ts`: the derived, recomputed
aggregate for one layer over a window of metrics. -/
structure LayerPerformanceSummary where
  id : String
  title : String
  domain : String
  requestCount : Nat
  avgLatency : ℚ
  totalDuration : ℚ
  loadTime : ℚ
  totalSize : ℚ
  errorCount : Nat
  requests : List NetworkRequestMetric
deriving DecidableEq

/-- Host component of a URL, modelling `new URL(url).hostname` used for the
`domain` field: the characters after `"://"` up to the next delimiter.
Parsing is modelled total (no claim depends on the domain field). -/
def hostChars : List Char → List Char
  | [] => []
  | c :: rest =>
    if c = '/' ∨ c = ':' ∨ c = '?' ∨ c = '#' then []
    else c :: hostChars rest

/-- Characters remaining after the `"://"` scheme separator. -/
def afterScheme : List Char → List Char
  | [] => []
  | ':' :: '/' :: '/' :: rest => rest
  | _ :: rest => afterScheme rest

/-- Model of `new URL(url).hostname`. -/
def urlHostname (url : String) : String :=
  String.mk (hostChars (afterScheme url.data))

/-- JavaScript string-keyed record assignment `r[k] = v`: overwrite in place
when the key exists, append otherwise. -/
def recordSet {α : Type} (r : List (String × α)) (k : String) (v : α) :
    List (String × α) :=
  if r.any (fun p => decide (p.fst = k)) then
    r.map (fun p => if p.fst = k then (k, v) else p)
  else r ++ [(k, v)]

/-- JavaScript record read `r[k]`, `none` when the key is absent. -/
def recordGet {α : Type} (r : List (String × α)) (k : String) : Option α :=
  (r.find? (fun p => decide (p.fst = k))).map (fun p => p.snd)

/-- Attribution test from `calculateMetrics`:
`m.url.toLowerCase().includes(l.url.toLowerCase())`. -/
def urlMatches (m : NetworkRequestMetric) (l : MapLayer) : Bool :=
  charsContain (lowerChars m.url) (lowerChars l.url)

/-- The initial per-layer summary created by `calculateMetrics` before any
metric is binned. -/
def initialSummary (l : MapLayer) : LayerPerformanceSummary :=
  { id := l.id, title := l.title, domain := urlHostname l.url,
    requestCount := 0, avgLatency := 0, totalDuration := 0, loadTime := 0,
    totalSize := 0, errorCount := 0, requests := [] }

/-- One binning step of the aggregation loop:
`s.requestCount++; s.totalDuration += m.duration; s.requests.push(m)`. -/
def addRequest (s : LayerPerformanceSummary) (m : NetworkRequestMetric) :
    LayerPerformanceSummary :=
  { s with requestCount := s.requestCount + 1,
           totalDuration := s.totalDuration + m.duration,
           requests := s.requests ++ [m] }

/-- Model of `Math.min(...requests.map(r => r.startTime))` for the nonempty
lists on which the source evaluates it (the `[]` base is never reached). -/
def minStartTime : List NetworkRequestMetric → ℚ
  | [] => 0
  | m :: rest => rest.foldl (fun a r => min a r.startTime) m.startTime

/-- Model of `Math.max(...requests.map(r => r.endTime))` for nonempty lists. -/
def maxEndTime : List NetworkRequestMetric → ℚ
  | [] => 0
  | m :: rest => rest.foldl (fun a r => max a r.endTime) m.endTime

/-- Final pass of `calculateMetrics`:
`if (s.requests.length > 0) s.loadTime = maxEnd - minStart`. -/
def applyLoadTime (s : LayerPerformanceSummary) : LayerPerformanceSummary :=
  if 0 < s.requests.length then
    { s with loadTime := maxEndTime s.requests - minStartTime s.requests }
  else s

/-- The aggregation step applied for one metric of the batch: find the first
tracked layer whose lowercased URL is contained in the metric's lowercased
URL and update that layer's record entry. -/
def binMetric (metricLayers : List MapLayer)
    (acc : List (String × LayerPerformanceSummary))
    (m : NetworkRequestMetric) : List (String × LayerPerformanceSummary) :=
  match metricLayers.find? (fun l => urlMatches m l) with
  | some matchedLayer =>
    match recordGet acc matchedLayer.id with
    | some s => recordSet acc matchedLayer.id (addRequest s m)
    | none => acc
  | none => acc

/-- `calculateMetrics` from the application (part_001, lines 190-220): builds
a record of per-layer summaries keyed by layer id, bins every metric of the
batch onto the first matching tracked layer, computes wall-clock load time,
and returns the record's values. -/
def calculateMetrics (metricLayers : List MapLayer)
    (metrics : List NetworkRequestMetric) : List LayerPerformanceSummary :=
  let stats0 := metricLayers.foldl
    (fun acc l => recordSet acc l.id (initialSummary l)) []
  let stats1 := metrics.foldl (binMetric metricLayers) stats0
  (stats1.map (fun p => (p.fst, applyLoadTime p.snd))).map (fun p => p.snd)

/-- A metric is attributed to layer `l` when `l` is the first layer of the
tracked list whose URL matches: the `.find` of the source. -/
def attributedTo (metricLayers : List MapLayer) (l : MapLayer)
    (m : NetworkRequestMetric) : Bool :=
  decide (metricLayers.find? (fun l2 => urlMatches m l2) = some l)

/-- The sublist of a batch attributed to layer `l`, in batch order. -/
def attributedMetrics (metricLayers : List MapLayer)
    (metrics : List NetworkRequestMetric) (l : MapLayer) :
    List NetworkRequestMetric :=
  metrics.filter (attributedTo metricLayers l)

/-- Reference form of the summary `calculateMetrics` produces for one tracked
layer (proved equal to the record computation under distinct layer ids). -/
def summaryFor (metricLayers : List MapLayer)
    (metrics : List NetworkRequestMetric) (l : MapLayer) :
    LayerPerformanceSummary :=
  applyLoadTime
    ((attributedMetrics metricLayers metrics l).foldl addRequest
      (initialSummary l))

/-- The summary fields the aggregation loop never writes. -/
def zeroFields (s : LayerPerformanceSummary) : Prop :=
  s.avgLatency = 0 ∧ s.totalSize = 0 ∧ s.errorCount = 0

/-- Metric Bus dispatch (`services/monitor.ts`): listeners live in an
insertion-ordered `Set`, `publish` runs `listeners.forEach(l => l(metric))`,
and a callback may call returned unsubscribers while the pass runs.
`unsubEffect c` is the set of listener ids that callback `c` unsubscribes
when invoked. Per JavaScript `Set.prototype.forEach` semantics, a value
deleted during iteration is skipped when not yet visited, while deleting an
already-visited value (including the running callback itself) has no effect
on the pass. The function returns the list of invoked callbacks in order. -/
def notifyListeners (unsubEffect : String → List String) :
    List String → List String → List String → List String
  | _, invoked, [] => invoked
  | deleted, invoked, c :: pending =>
    if c ∈ deleted then notifyListeners unsubEffect deleted invoked pending
    else
      notifyListeners unsubEffect (deleted ++ unsubEffect c)
        (invoked ++ [c]) pending

/-- One full publish pass over the subscribed listeners: the invoked
callbacks, in order. -/
def publishDispatch (unsubEffect : String → List String)
    (listeners : List String) : List String :=
  notifyListeners unsubEffect [] [] listeners

/-- Busy signals the idle waiter polls: the view-level `updating` flag and
the aggregated per-layer busy map, each as a function of absolute time. -/
structure IdleSignals where
  viewUpdating : Nat → Bool
  anyLayerBusy : Nat → Bool

/-- The polling loop of `waitForIdle` (part_001, lines 248-266). Each
iteration sleeps 200ms, re-checks the loop guard `Date.now() - start <
timeout`, skips back when the view or any layer is busy, and otherwise
applies the 800ms settlement delay and re-checks both signals. Time is
modelled as advancing by exactly the slept duration. The loop is driven by
fuel, one unit per iteration; since every iteration advances time by at
least 200ms, `timeout + 1` units are more than the loop can ever consume,
and the fuel-exhausted base case coincides with the loop's timeout exit. -/
def waitForIdleLoop (sig : IdleSignals) (timeout start : Nat) :
    Nat → Nat → Bool × Nat
  | 0, now => (false, now)
  | fuel + 1, now =>
    if now - start < timeout then
      let t1 := now + 200
      if sig.viewUpdating t1 then waitForIdleLoop sig timeout start fuel t1
      else if sig.anyLayerBusy t1 then waitForIdleLoop sig timeout start fuel t1
      else
        let t2 := t1 + 800
        if sig.viewUpdating t2 = false ∧ sig.anyLayerBusy t2 = false then
          (true, t2)
        else waitForIdleLoop sig timeout start fuel t2
    else (false, now)

/-- `waitForIdle(timeout)` started at absolute time `start`: returns the
boolean result and the absolute time of the return. -/
def waitForIdle (sig : IdleSignals) (timeout start : Nat) : Bool × Nat :=
  waitForIdleLoop sig timeout start (timeout + 1) start

/-- Step kind: `'nav' | 'query'` in the source. -/
inductive StepType where
  | nav
  | query
deriving DecidableEq

/-- The externally visible effect of a step's action: a `view.goTo` call
with a center and zoom, or the query-all-visible-feature-layers action. -/
inductive StepAction where
  | navigate (center : ℚ × ℚ) (zoom : Nat)
  | queryFeatures
deriving DecidableEq

/-- One named reference location of the benchmark (`TOWNS` in the source). -/
structure Town where
  name : String
  center : ℚ × ℚ
deriving DecidableEq

/-- The fixed list of ten Vermont towns the navigation steps cycle through. -/
def TOWNS : List Town := [
  { name := "Montpelier", center := (-72.5778, 44.2601) },
  { name := "Burlington", center := (-73.2121, 44.4759) },
  { name := "Rutland", center := (-72.9726, 43.6106) },
  { name := "St. Albans", center := (-73.0825, 44.8109) },
  { name := "Brattleboro", center := (-72.5579, 42.8509) },
  { name := "Middlebury", center := (-73.1673, 44.0153) },
  { name := "Newport", center := (-72.2053, 44.9362) },
  { name := "Bennington", center := (-73.1968, 42.8781) },
  { name := "St. Johnsbury", center := (-72.0158, 44.4196) },
  { name := "Stowe", center := (-72.6856, 44.4654) }]

/-- One scripted benchmark step: name, kind, and action. -/
structure BenchmarkStep where
  name : String
  type : StepType
  action : StepAction
deriving DecidableEq

/-- The ten navigation steps: for `i = 0..9`, zoom `10 + (i % 7)` and town
`TOWNS[i % TOWNS.length]`, named `Nav {i+1}: {town} (Z{zoom})`. -/
def navSteps : List BenchmarkStep :=
  (List.range 10).map (fun i =>
    let zoom := 10 + i % 7
    let town := TOWNS.getD (i % TOWNS.length) { name := "", center := (0, 0) }
    { name := "Nav " ++ toString (i + 1) ++ ": " ++ town.name ++
        " (Z" ++ toString zoom ++ ")",
      type := StepType.nav,
      action := StepAction.navigate town.center zoom })

/-- The five query steps, named `Query {i}: Features` for `i = 1..5`. -/
def querySteps : List BenchmarkStep :=
  (List.range 5).map (fun i =>
    { name := "Query " ++ toString (i + 1) ++ ": Features",
      type := StepType.query,
      action := StepAction.queryFeatures })

/-- The full fixed step sequence of one run. -/
def allSteps : List BenchmarkStep := navSteps ++ querySteps

/-- The per-layer entry of a `BenchmarkStepResult` (load time in seconds). -/
structure StepLayerMetric where
  loadTime : ℚ
  requestCount : Nat
deriving DecidableEq

/-- BenchmarkStepResult from `types.ts`. -/
structure BenchmarkStepResult where
  stepName : String
  type : StepType
  layerMetrics : List (String × StepLayerMetric)
deriving DecidableEq

/-- The per-layer entry of the report summary record. -/
structure LayerBenchSummary where
  avgNavLoadTime : ℚ
  avgQueryLoadTime : ℚ
  totalRequests : Nat
  score : ℚ
deriving DecidableEq

/-- BenchmarkReportData from `types.ts`. The wall-clock `date` string is
external output and not modelled. `fastestLayerId`/`slowestLayerId` are
`undefined` in JavaScript when no metric layer exists, modelled as `none`. -/
structure BenchmarkReportData where
  steps : List BenchmarkStepResult
  summary : List (String × LayerBenchSummary)
  fastestLayerId : Option String
  slowestLayerId : Option String
  percentFaster : ℚ
deriving DecidableEq

/-- The environment a benchmark run executes against: the outcome of the
setup navigation, the outcome of each navigation step's `goTo` promise, the
outcomes of the per-layer `queryFeatures` promises of each query step, and
the metrics that accumulate in the benchmark buffer during each step. -/
structure BenchmarkEnv where
  setupNav : Except String Unit
  navOutcome : Nat → Except String Unit
  queryOutcomes : Nat → List (Except String Unit)
  stepMetrics : Nat → List NetworkRequestMetric

/-- The `.catch(e => console.warn(...))` attached to each per-layer query
promise: a rejection is absorbed and the promise resolves. -/
def catchToOk (o : Except String Unit) : Except String Unit :=
  match o with
  | Except.ok _ => Except.ok ()
  | Except.error _ => Except.ok ()

/-- `Promise.all` over the per-layer promises: rejects when any rejects. -/
def promiseAll (os : List (Except String Unit)) : Except String Unit :=
  os.foldl (fun acc o =>
    match acc, o with
    | Except.ok _, Except.ok _ => Except.ok ()
    | Except.error e, _ => Except.error e
    | _, Except.error e => Except.error e) (Except.ok ())

/-- A query step's action: `Promise.all` of guarded per-layer queries. -/
def queryStepAction (layerQueryOutcomes : List (Except String Unit)) :
    Except String Unit :=
  promiseAll (layerQueryOutcomes.map catchToOk)

/-- Outcome of `await step.action()` for the step at run index `i`: a
navigation step propagates its `goTo` rejection, a query step runs the
guarded queries. -/
def stepActionResult (env : BenchmarkEnv) (i : Nat) (step : BenchmarkStep) :
    Except String Unit :=
  match step.action with
  | StepAction.navigate _ _ => env.navOutcome i
  | StepAction.queryFeatures => queryStepAction (env.queryOutcomes i)

/-- Per-step result synthesis: aggregate the benchmark-local accumulator
via `calculateMetrics` and record `{loadTime: sm.loadTime / 1000,
requestCount}` per metric layer. -/
def stepResultFor (metricLayers : List MapLayer)
    (ms : List NetworkRequestMetric) (step : BenchmarkStep) :
    BenchmarkStepResult :=
  let stepMetrics := calculateMetrics metricLayers ms
  let resultLayerMetrics := metricLayers.foldl (fun acc l =>
    recordSet acc l.id
      (match stepMetrics.find? (fun s => decide (s.id = l.id)) with
       | some sm =>
         { loadTime := sm.loadTime / 1000, requestCount := sm.requestCount }
       | none => { loadTime := 0, requestCount := 0 })) []
  { stepName := step.name, type := step.type,
    layerMetrics := resultLayerMetrics }

/-- The step loop of `runBenchmark`: execute each step's action in order;
an uncaught rejection aborts the whole run (discarding the results built so
far), otherwise the step's result is appended. -/
def runLoopAux (metricLayers : List MapLayer) (env : BenchmarkEnv) :
    Nat → List BenchmarkStep → Except String (List BenchmarkStepResult)
  | _, [] => Except.ok []
  | i, step :: rest =>
    match stepActionResult env i step with
    | Except.error e => Except.error e
    | Except.ok _ =>
      match runLoopAux metricLayers env (i + 1) rest with
      | Except.error e => Except.error e
      | Except.ok tail =>
        Except.ok (stepResultFor metricLayers (env.stepMetrics i) step :: tail)

/-- The whole guarded run sequence: setup navigation, then the step loop. -/
def runBenchmarkExec (metricLayers : List MapLayer) (env : BenchmarkEnv) :
    Except String (List BenchmarkStepResult) :=
  match env.setupNav with
  | Except.error e => Except.error e
  | Except.ok _ => runLoopAux metricLayers env 0 allSteps

/-- Read of `r.layerMetrics[l.id]`; every id of the tracked-layer list is
present in records produced by `stepResultFor`. -/
def stepLayerMetric (r : BenchmarkStepResult) (id : String) :
    StepLayerMetric :=
  (recordGet r.layerMetrics id).getD { loadTime := 0, requestCount := 0 }

/-- Report-synthesis summary for one layer: navigation and query averages,
total request count, and the ranking score (the navigation average). -/
def layerBenchSummary (results : List BenchmarkStepResult) (l : MapLayer) :
    LayerBenchSummary :=
  let layerNavSteps := (results.filter
    (fun r => decide (r.type = StepType.nav))).map
      (fun r => stepLayerMetric r l.id)
  let layerQuerySteps := (results.filter
    (fun r => decide (r.type = StepType.query))).map
      (fun r => stepLayerMetric r l.id)
  let totalNavLoad := layerNavSteps.foldl (fun acc curr => acc + curr.loadTime) 0
  let totalQueryLoad :=
    layerQuerySteps.foldl (fun acc curr => acc + curr.loadTime) 0
  let totalReq := (layerNavSteps ++ layerQuerySteps).foldl
    (fun acc curr => acc + curr.requestCount) 0
  let avgNavLoad := if 0 < layerNavSteps.length then
    totalNavLoad / (layerNavSteps.length : ℚ) else 0
  let avgQueryLoad := if 0 < layerQuerySteps.length then
    totalQueryLoad / (layerQuerySteps.length : ℚ) else 0
  { avgNavLoadTime := avgNavLoad, avgQueryLoadTime := avgQueryLoad,
    totalRequests := totalReq, score := avgNavLoad }

/-- Read of `summary[id].score` (defined for every tracked layer id). -/
def scoreAt (summary : List (String × LayerBenchSummary)) (id : String) : ℚ :=
  match recordGet summary id with
  | some e => e.score
  | none => 0

/-- Read of `summary[id]?.avgNavLoadTime || 0`. -/
def navTimeAt (summary : List (String × LayerBenchSummary)) (id : String) :
    ℚ :=
  match recordGet summary id with
  | some e => e.avgNavLoadTime
  | none => 0

/-- Report synthesis of `runBenchmark` (part_001, lines 382-424): per-layer
summary record, fastest/slowest determination by score, and the
percent-faster figure with its division-by-zero guard. -/
def buildReport (metricLayers : List MapLayer)
    (results : List BenchmarkStepResult) : BenchmarkReportData :=
  let summary := metricLayers.foldl
    (fun acc l => recordSet acc l.id (layerBenchSummary results l)) []
  match metricLayers with
  | [] =>
    { steps := results, summary := summary, fastestLayerId := none,
      slowestLayerId := none, percentFaster := 0 }
  | l0 :: _ =>
    let fastestId := metricLayers.foldl
      (fun fid l => if scoreAt summary l.id < scoreAt summary fid then l.id
        else fid) l0.id
    let slowestId := metricLayers.foldl
      (fun sid l => if scoreAt summary sid < scoreAt summary l.id then l.id
        else sid) l0.id
    let fastTime := navTimeAt summary fastestId
    let slowTime := navTimeAt summary slowestId
    let percentFaster := if 0 < fastTime then
      ((slowTime / fastTime) - 1) * 100 else 0
    { steps := results, summary := summary,
      fastestLayerId := some fastestId, slowestLayerId := some slowestId,
      percentFaster := percentFaster }

/-- The pieces of application state `runBenchmark` reads and writes. -/
structure BenchmarkState where
  isRunningBenchmark : Bool
  benchmarkReport : Option BenchmarkReportData
  isRecording : Bool
deriving DecidableEq

/-- `runBenchmark` (part_001, lines 268-436) as a state transformer: it
sets the running flag, clears the stored report (`setBenchmarkReport(null)`),
suspends recording, executes the guarded run sequence, stores the built
report only on success, and in the `finally` path clears the running flag
and restores the prior recording state. -/
def runBenchmark (metricLayers : List MapLayer) (env : BenchmarkEnv)
    (st : BenchmarkState) : BenchmarkState :=
  let originalRecording := st.isRecording
  match runBenchmarkExec metricLayers env with
  | Except.error _ =>
    { isRunningBenchmark := false, benchmarkReport := none,
      isRecording := originalRecording }
  | Except.ok results =>
    { isRunningBenchmark := false,
      benchmarkReport := some (buildReport metricLayers results),
      isRecording := originalRecording }

/-- Scenario A layer: a single tracked layer X. -/
def scenarioALayer : MapLayer :=
  { id := "layer-x", title := "Layer X",
    url := "https://example.com/arcgis/rest/services/x/FeatureServer",
    type := LayerType.feature, visible := true }

/-- Scenario A batch: three requests matched by layer X with
(start, end) = (100, 300), (150, 250), (280, 400). -/
def scenarioAMetrics : List NetworkRequestMetric := [
  { id := "r1",
    url := "https://example.com/arcgis/rest/services/x/FeatureServer/0",
    startTime := 100, endTime := 300, duration := 200, status := 200 },
  { id := "r2",
    url := "https://example.com/arcgis/rest/services/x/FeatureServer/1",
    startTime := 150, endTime := 250, duration := 100, status := 200 },
  { id := "r3",
    url := "https://example.com/arcgis/rest/services/x/FeatureServer/2",
    startTime := 280, endTime := 400, duration := 120, status := 200 }]

/-- Scenario B layers: two tracked layers whose URLs are substrings of one
another, in tracked order. -/
def scenarioBLayerA : MapLayer :=
  { id := "layer-a", title := "Service A",
    url := "https://host.example.com/ArcGIS/rest/services/A",
    type := LayerType.mapImage, visible := true }

/-- Scenario B second layer, with the longer URL. -/
def scenarioBLayerB : MapLayer :=
  { id := "layer-b", title := "Service A MapServer",
    url := "https://host.example.com/ArcGIS/rest/services/A/MapServer",
    type := LayerType.mapImage, visible := true }

/-- Scenario B request, to the longer URL: both layers match. -/
def scenarioBMetric : NetworkRequestMetric :=
  { id := "rb",
    url := "https://host.example.com/ArcGIS/rest/services/A/MapServer/export",
    startTime := 0, endTime := 10, duration := 10, status := 200 }

/-- A layer used by the C3 counterexample batches. -/
def gapLayer : MapLayer :=
  { id := "layer-g", title := "Gap Layer",
    url := "https://gap.example.com/service",
    type := LayerType.tile, visible := true }

/-- Two well-formed requests (end ≥ start) separated by a 90ms gap: the
wall-clock span 110 exceeds the summed durations 20. -/
def gapMetrics : List NetworkRequestMetric := [
  { id := "g1", url := "https://gap.example.com/service/tile/1",
    startTime := 0, endTime := 10, duration := 10, status := 200 },
  { id := "g2", url := "https://gap.example.com/service/tile/2",
    startTime := 100, endTime := 110, duration := 10, status := 200 }]

/-- An empty benchmark report value, used as a prior stored report. -/
def dummyReport : BenchmarkReportData :=
  { steps := [], summary := [], fastestLayerId := none,
    slowestLayerId := none, percentFaster := 0 }

/-- A quiescent application state with no stored report. -/
def pausedState : BenchmarkState :=
  { isRunningBenchmark := false, benchmarkReport := none,
    isRecording := false }

/-- A state holding a previously stored report. -/
def stateWithReport : BenchmarkState :=
  { isRunningBenchmark := false, benchmarkReport := some dummyReport,
    isRecording := false }

/-- An environment whose setup navigation rejects. -/
def failingEnv : BenchmarkEnv :=
  { setupNav := Except.error "setup goTo rejected",
    navOutcome := fun _ => Except.ok (),
    queryOutcomes := fun _ => [], stepMetrics := fun _ => [] }

/-- An environment whose first navigation step's `goTo` promise rejects. -/
def navFailEnv : BenchmarkEnv :=
  { setupNav := Except.ok (),
    navOutcome := fun i => if i = 0 then Except.error "goTo rejected"
      else Except.ok (),
    queryOutcomes := fun _ => [], stepMetrics := fun _ => [] }

/-- An environment where every per-layer query promise rejects but all
navigations succeed. -/
def queryFailEnv : BenchmarkEnv :=
  { setupNav := Except.ok (), navOutcome := fun _ => Except.ok (),
    queryOutcomes := fun _ => [Except.error "query rejected"],
    stepMetrics := fun _ => [] }

/-- An environment where everything succeeds and no traffic arrives. -/
def emptyRunEnv : BenchmarkEnv :=
  { setupNav := Except.ok (), navOutcome := fun _ => Except.ok (),
    queryOutcomes := fun _ => [], stepMetrics := fun _ => [] }

/-- The report of the successful empty run. -/
def emptyRunReport : BenchmarkReportData :=
  ((runBenchmark [] emptyRunEnv pausedState).benchmarkReport).getD dummyReport

/-- Scenario D layer A. -/
def scenarioDLayerA : MapLayer :=
  { id := "bench-a", title := "Bench A", url := "https://a.example.com/rest",
    type := LayerType.feature, visible := true }

/-- Scenario D layer B. -/
def scenarioDLayerB : MapLayer :=
  { id := "bench-b", title := "Bench B", url := "https://b.example.com/rest",
    type := LayerType.feature, visible := true }

/-- Scenario D navigation step result: layer A loads in 1.0s, B in 2.0s. -/
def scenarioDNavResult : BenchmarkStepResult :=
  { stepName := "Nav", type := StepType.nav,
    layerMetrics := [
      ("bench-a", { loadTime := 1, requestCount := 1 }),
      ("bench-b", { loadTime := 2, requestCount := 1 })] }

/-- Scenario D query step result: no traffic. -/
def scenarioDQueryResult : BenchmarkStepResult :=
  { stepName := "Query", type := StepType.query,
    layerMetrics := [
      ("bench-a", { loadTime := 0, requestCount := 0 }),
      ("bench-b", { loadTime := 0, requestCount := 0 })] }

/-- Scenario D run results: ten navigation steps averaging 1.0s for A and
2.0s for B, then five query steps. -/
def scenarioDResults : List BenchmarkStepResult := [
  scenarioDNavResult, scenarioDNavResult, scenarioDNavResult,
  scenarioDNavResult, scenarioDNavResult, scenarioDNavResult,
  scenarioDNavResult, scenarioDNavResult, scenarioDNavResult,
  scenarioDNavResult,
  scenarioDQueryResult, scenarioDQueryResult, scenarioDQueryResult,
  scenarioDQueryResult, scenarioDQueryResult]

/-- The layer-A summary Scenario D should produce. -/
def scenarioDSummaryA : LayerBenchSummary :=
  { avgNavLoadTime := 1, avgQueryLoadTime := 0, totalRequests := 10,
    score := 1 }

/-- The layer-B summary Scenario D should produce. -/
def scenarioDSummaryB : LayerBenchSummary :=
  { avgNavLoadTime := 2, avgQueryLoadTime := 0, totalRequests := 10,
    score := 2 }

/-- A signal environment whose view busy flag is always true. -/
def alwaysBusySignals : IdleSignals :=
  { viewUpdating := fun _ => true, anyLayerBusy := fun _ => false }

/-- Unsubscribe behaviour where callback A unsubscribes listener B. -/
def crossUnsub (c : String) : List String :=
  if c = "A" then ["B"] else []

/-- Unsubscribe behaviour where every callback unsubscribes only itself. -/
def selfUnsub (c : String) : List String := [c]

theorem charsStartsWith_iff (hay needle : List Char) :
    charsStartsWith hay needle = true ↔ needle <+: hay := by
  induction hay generalizing needle with
  | nil =>
    cases needle with
    | nil => simp [charsStartsWith]
    | cons n ns =>
      simp only [charsStartsWith]
      constructor
      · intro h; cases h
      · intro h
        rcases h with ⟨t, ht⟩
        cases ht
  | cons h t ih =>
    cases needle with
    | nil =>
      simp [charsStartsWith]
    | cons n ns =>
      simp only [charsStartsWith, Bool.and_eq_true, decide_eq_true_eq, ih]
      constructor
      · rintro ⟨rfl, ⟨u, hu⟩⟩
        exact ⟨u, by simp [hu]⟩
      · rintro ⟨u, hu⟩
        cases hu
        exact ⟨rfl, ⟨u, rfl⟩⟩

theorem charsContain_iff (hay needle : List Char) :
    charsContain hay needle = true ↔ needle <:+: hay := by
  induction hay with
  | nil =>
    cases needle with
    | nil => simp [charsContain]
    | cons n ns =>
      simp only [charsContain, List.isEmpty_cons]
      constructor
      · intro h; cases h
      · rintro ⟨s, t, hst⟩
        exact absurd hst.symm (by simp)
  | cons h t ih =>
    simp only [charsContain, Bool.or_eq_true, charsStartsWith_iff, ih]
    constructor
    · rintro (hp | hi)
      · exact hp.isInfix
      · rcases hi with ⟨s, u, hsu⟩
        exact ⟨h :: s, u, by simp [hsu]⟩
    · rintro ⟨s, u, hsu⟩
      cases s with
      | nil => exact Or.inl ⟨u, by simpa using hsu⟩
      | cons s0 srest =>
        right
        refine ⟨srest, u, ?_⟩
        have := hsu
        simp only [List.cons_append, List.cons.injEq] at this
        exact this.2

theorem recordSet_of_not_mem {α : Type} (r : List (String × α)) (k : String)
    (v : α) (h : ∀ p ∈ r, p.fst ≠ k) : recordSet r k v = r ++ [(k, v)] := by
  unfold recordSet
  have hany : r.any (fun p => decide (p.fst = k)) = false := by
    simp only [List.any_eq_false, decide_eq_true_eq]
    exact h
  simp [hany]

theorem recordSet_mem_cases {α : Type} {r : List (String × α)} {k : String}
    {v : α} {p : String × α} (h : p ∈ recordSet r k v) :
    p.snd = v ∨ p ∈ r := by
  unfold recordSet at h
  split at h
  · rcases List.mem_map.mp h with ⟨q, hq, hpq⟩
    by_cases hk : q.fst = k
    · simp [hk] at hpq
      exact Or.inl (by rw [← hpq])
    · simp [hk] at hpq
      exact Or.inr (hpq ▸ hq)
  · rcases List.mem_append.mp h with hq | hq
    · exact Or.inr hq
    · simp at hq
      exact Or.inl (by rw [hq])

theorem recordGet_mem {α : Type} {r : List (String × α)} {k : String}
    {v : α} (h : recordGet r k = some v) : ∃ p ∈ r, p.snd = v := by
  unfold recordGet at h
  rcases Option.map_eq_some'.mp h with ⟨p, hp, hv⟩
  exact ⟨p, List.mem_of_find?_eq_some hp, hv⟩

theorem foldl_recordSet_shape {α : Type} (L : List MapLayer)
    (f : MapLayer → α) :
    ∀ (r : List (String × α)), (L.map (fun l => l.id)).Nodup →
      (∀ p ∈ r, ∀ l ∈ L, p.fst ≠ l.id) →
      L.foldl (fun acc l => recordSet acc l.id (f l)) r =
        r ++ L.map (fun l => (l.id, f l)) := by
  induction L with
  | nil => intro r _ _; simp
  | cons l L ih =>
    intro r hN hdisj
    have hstep : recordSet r l.id (f l) = r ++ [(l.id, f l)] :=
      recordSet_of_not_mem r l.id (f l)
        (fun p hp => hdisj p hp l (List.mem_cons_self l L))
    simp only [List.foldl_cons, hstep]
    rw [ih (r ++ [(l.id, f l)]) (by simpa using hN.of_cons)]
    · simp
    · intro p hp l2 hl2
      rcases List.mem_append.mp hp with hp | hp
      · exact hdisj p hp l2 (List.mem_cons_of_mem l hl2)
      · simp at hp
        rw [hp]
        intro hid
        have : l.id ∈ L.map (fun l => l.id) :=
          List.mem_map.mpr ⟨l2, hl2, hid.symm⟩
        simp only [List.map_cons, List.nodup_cons] at hN
        exact hN.1 this

theorem id_injective_of_nodup {L : List MapLayer}
    (hN : (L.map (fun l => l.id)).Nodup) :
    ∀ a ∈ L, ∀ b ∈ L, a.id = b.id → a = b := by
  intro a ha b hb hab
  exact List.inj_on_of_nodup_map hN ha hb hab

theorem recordGet_shape {α : Type} (L : List MapLayer) (g : MapLayer → α)
    (l0 : MapLayer) (hN : (L.map (fun l => l.id)).Nodup) (h0 : l0 ∈ L) :
    recordGet (L.map (fun l => (l.id, g l))) l0.id = some (g l0) := by
  induction L with
  | nil => cases h0
  | cons l L ih =>
    simp only [List.map_cons, List.nodup_cons] at hN
    by_cases hid : l.id = l0.id
    · have : l0 = l := by
        rcases List.mem_cons.mp h0 with h | h
        · exact h
        · exact absurd (List.mem_map.mpr ⟨l0, h, hid.symm⟩) hN.1
      subst this
      simp [recordGet, List.find?, hid]
    · have h0' : l0 ∈ L := by
        rcases List.mem_cons.mp h0 with h | h
        · exact absurd (congrArg MapLayer.id h.symm) hid
        · exact h
      have := ih hN.2 h0'
      simp only [recordGet, List.map_cons, List.find?] at this ⊢
      simp only [decide_eq_true_eq, hid, decide_False]
      exact this

theorem recordSet_shape {α : Type} (L : List MapLayer) (g : MapLayer → α)
    (l0 : MapLayer) (v : α) (h0 : l0 ∈ L) :
    recordSet (L.map (fun l => (l.id, g l))) l0.id v =
      L.map (fun l => (l.id, if l.id = l0.id then v else g l)) := by
  unfold recordSet
  have hany : (L.map (fun l => (l.id, g l))).any
      (fun p => decide (p.fst = l0.id)) = true := by
    simp only [List.any_eq_true]
    exact ⟨(l0.id, g l0), List.mem_map.mpr ⟨l0, h0, rfl⟩, by simp⟩
  simp only [hany, if_true, List.map_map]
  apply List.map_congr_left
  intro l _
  by_cases h : l.id = l0.id
  · simp [Function.comp, h]
  · simp [Function.comp, h]

theorem foldl_binMetric_shape (M : List NetworkRequestMetric)
    (L : List MapLayer) (hN : (L.map (fun l => l.id)).Nodup) :
    ∀ (g : MapLayer → LayerPerformanceSummary),
      M.foldl (binMetric L) (L.map (fun l => (l.id, g l))) =
        L.map (fun l =>
          (l.id, (M.filter (attributedTo L l)).foldl addRequest (g l))) := by
  induction M with
  | nil => intro g; simp
  | cons m M ih =>
    intro g
    simp only [List.foldl_cons]
    cases hf : L.find? (fun l2 => urlMatches m l2) with
    | none =>
      have hbin : binMetric L (L.map (fun l => (l.id, g l))) m =
          L.map (fun l => (l.id, g l)) := by
        simp [binMetric, hf]
      rw [hbin, ih g]
      apply List.map_congr_left
      intro l _
      have : attributedTo L l m = false := by
        simp [attributedTo, hf]
      simp [List.filter_cons, this]
    | some l0 =>
      have hl0 : l0 ∈ L := List.mem_of_find?_eq_some hf
      have hbin : binMetric L (L.map (fun l => (l.id, g l))) m =
          L.map (fun l =>
            (l.id, if l.id = l0.id then addRequest (g l0) m else g l)) := by
        simp only [binMetric, hf, recordGet_shape L g l0 hN hl0]
        exact recordSet_shape L g l0 (addRequest (g l0) m) hl0
      rw [hbin, ih (fun l => if l.id = l0.id then addRequest (g l0) m else g l)]
      apply List.map_congr_left
      intro l hl
      by_cases hid : l.id = l0.id
      · have : l = l0 := id_injective_of_nodup hN l hl l0 hl0 hid
        subst this
        have hatt : attributedTo L l m = true := by
          simp [attributedTo, hf]
        simp [List.filter_cons, hatt, hid]
      · have hne : l ≠ l0 := fun h => hid (congrArg MapLayer.id h)
        have hatt : attributedTo L l m = false := by
          simp only [attributedTo, hf, decide_eq_false_iff_not]
          intro h
          exact hne (Option.some.inj h).symm
        simp [List.filter_cons, hatt, hid]

/-- Under the data-model invariant that tracked layer ids are distinct,
`calculateMetrics` produces exactly one summary per tracked layer, in layer
order, and each summary is the direct per-layer aggregation `summaryFor`. -/
theorem calculateMetrics_eq (L : List MapLayer)
    (M : List NetworkRequestMetric) (hN : (L.map (fun l => l.id)).Nodup) :
    calculateMetrics L M = L.map (summaryFor L M) := by
  unfold calculateMetrics
  rw [foldl_recordSet_shape L initialSummary [] hN (by intro p hp; cases hp)]
  simp only [List.nil_append]
  rw [foldl_binMetric_shape M L hN initialSummary]
  simp only [List.map_map]
  apply List.map_congr_left
  intro l _
  simp [Function.comp, summaryFor, attributedMetrics]

theorem foldl_addRequest_requests (ms : List NetworkRequestMetric) :
    ∀ s, (ms.foldl addRequest s).requests = s.requests ++ ms := by
  induction ms with
  | nil => intro s; simp
  | cons m ms ih => intro s; simp [ih, addRequest]

theorem foldl_addRequest_requestCount (ms : List NetworkRequestMetric) :
    ∀ s, (ms.foldl addRequest s).requestCount = s.requestCount + ms.length := by
  induction ms with
  | nil => intro s; simp
  | cons m ms ih => intro s; simp [ih, addRequest]; omega

theorem foldl_addRequest_totalDuration (ms : List NetworkRequestMetric) :
    ∀ s, (ms.foldl addRequest s).totalDuration =
      s.totalDuration + (ms.map (fun m => m.duration)).sum := by
  induction ms with
  | nil => intro s; simp
  | cons m ms ih => intro s; simp [ih, addRequest]; ring

theorem foldl_addRequest_untouched (ms : List NetworkRequestMetric) :
    ∀ s, (ms.foldl addRequest s).id = s.id ∧
      (ms.foldl addRequest s).title = s.title ∧
      (ms.foldl addRequest s).loadTime = s.loadTime ∧
      (ms.foldl addRequest s).avgLatency = s.avgLatency ∧
      (ms.foldl addRequest s).totalSize = s.totalSize ∧
      (ms.foldl addRequest s).errorCount = s.errorCount := by
  induction ms with
  | nil => intro s; simp
  | cons m ms ih => intro s; simpa [addRequest] using ih (addRequest s m)

theorem summaryFor_requests (L : List MapLayer)
    (M : List NetworkRequestMetric) (l : MapLayer) :
    (summaryFor L M l).requests = attributedMetrics L M l := by
  unfold summaryFor applyLoadTime
  split <;> simp [foldl_addRequest_requests, initialSummary]

theorem summaryFor_requestCount (L : List MapLayer)
    (M : List NetworkRequestMetric) (l : MapLayer) :
    (summaryFor L M l).requestCount = (attributedMetrics L M l).length := by
  unfold summaryFor applyLoadTime
  split <;> simp [foldl_addRequest_requestCount, initialSummary]

theorem summaryFor_id (L : List MapLayer) (M : List NetworkRequestMetric)
    (l : MapLayer) : (summaryFor L M l).id = l.id := by
  unfold summaryFor applyLoadTime
  split <;> simp [(foldl_addRequest_untouched _ _).1, initialSummary]

theorem summaryFor_loadTime_empty (L : List MapLayer)
    (M : List NetworkRequestMetric) (l : MapLayer)
    (h : attributedMetrics L M l = []) : (summaryFor L M l).loadTime = 0 := by
  unfold summaryFor
  rw [h]
  simp [applyLoadTime, initialSummary]

theorem summaryFor_loadTime_nonempty (L : List MapLayer)
    (M : List NetworkRequestMetric) (l : MapLayer)
    (h : attributedMetrics L M l ≠ []) :
    (summaryFor L M l).loadTime =
      maxEndTime (attributedMetrics L M l) -
        minStartTime (attributedMetrics L M l) := by
  unfold summaryFor applyLoadTime
  have hreq : (List.foldl addRequest (initialSummary l)
      (attributedMetrics L M l)).requests = attributedMetrics L M l := by
    simpa [initialSummary] using
      foldl_addRequest_requests (attributedMetrics L M l) (initialSummary l)
  rw [hreq, if_pos (List.length_pos.mpr h)]

theorem foldl_min_le_init (ms : List NetworkRequestMetric) :
    ∀ a : ℚ, ms.foldl (fun x r => min x r.startTime) a ≤ a := by
  induction ms with
  | nil => intro a; simp
  | cons m ms ih =>
    intro a
    calc ms.foldl (fun x r => min x r.startTime) (min a m.startTime)
        ≤ min a m.startTime := ih (min a m.startTime)
      _ ≤ a := min_le_left _ _

theorem foldl_min_le_mem (ms : List NetworkRequestMetric) :
    ∀ (a : ℚ) (m : NetworkRequestMetric), m ∈ ms →
      ms.foldl (fun x r => min x r.startTime) a ≤ m.startTime := by
  induction ms with
  | nil => intro a m hm; cases hm
  | cons m0 ms ih =>
    intro a m hm
    rcases List.mem_cons.mp hm with rfl | hm
    · calc ms.foldl (fun x r => min x r.startTime) (min a m.startTime)
          ≤ min a m.startTime := foldl_min_le_init ms _
        _ ≤ m.startTime := min_le_right _ _
    · exact ih (min a m0.startTime) m hm

theorem minStartTime_le (ms : List NetworkRequestMetric)
    (m : NetworkRequestMetric) (hm : m ∈ ms) :
    minStartTime ms ≤ m.startTime := by
  cases ms with
  | nil => cases hm
  | cons m0 rest =>
    rcases List.mem_cons.mp hm with rfl | hm
    · exact foldl_min_le_init rest m.startTime
    · exact foldl_min_le_mem rest m0.startTime m hm

theorem init_le_foldl_max (ms : List NetworkRequestMetric) :
    ∀ a : ℚ, a ≤ ms.foldl (fun x r => max x r.endTime) a := by
  induction ms with
  | nil => intro a; simp
  | cons m ms ih =>
    intro a
    calc a ≤ max a m.endTime := le_max_left _ _
      _ ≤ ms.foldl (fun x r => max x r.endTime) (max a m.endTime) :=
        ih (max a m.endTime)

theorem mem_le_foldl_max (ms : List NetworkRequestMetric) :
    ∀ (a : ℚ) (m : NetworkRequestMetric), m ∈ ms →
      m.endTime ≤ ms.foldl (fun x r => max x r.endTime) a := by
  induction ms with
  | nil => intro a m hm; cases hm
  | cons m0 ms ih =>
    intro a m hm
    rcases List.mem_cons.mp hm with rfl | hm
    · calc m.endTime ≤ max a m.endTime := le_max_right _ _
        _ ≤ ms.foldl (fun x r => max x r.endTime) (max a m.endTime) :=
          init_le_foldl_max ms _
    · exact ih (max a m0.endTime) m hm

theorem le_maxEndTime (ms : List NetworkRequestMetric)
    (m : NetworkRequestMetric) (hm : m ∈ ms) :
    m.endTime ≤ maxEndTime ms := by
  cases ms with
  | nil => cases hm
  | cons m0 rest =>
    rcases List.mem_cons.mp hm with rfl | hm
    · exact init_le_foldl_max rest m.endTime
    · exact mem_le_foldl_max rest m0.endTime m hm

theorem zeroFields_initialSummary (l : MapLayer) :
    zeroFields (initialSummary l) := by
  simp [zeroFields, initialSummary]

theorem zeroFields_addRequest {s : LayerPerformanceSummary}
    (h : zeroFields s) (m : NetworkRequestMetric) :
    zeroFields (addRequest s m) := by
  simpa [zeroFields, addRequest] using h

theorem zeroFields_applyLoadTime {s : LayerPerformanceSummary}
    (h : zeroFields s) : zeroFields (applyLoadTime s) := by
  unfold applyLoadTime
  split
  · simpa [zeroFields] using h
  · exact h

theorem zeroFields_stats0 (L : List MapLayer) :
    ∀ (r : List (String × LayerPerformanceSummary)),
      (∀ p ∈ r, zeroFields p.snd) →
      ∀ p ∈ L.foldl (fun acc l => recordSet acc l.id (initialSummary l)) r,
        zeroFields p.snd := by
  induction L with
  | nil => intro r hr; exact hr
  | cons l L ih =>
    intro r hr
    apply ih
    intro p hp
    rcases recordSet_mem_cases hp with h | h
    · rw [h]; exact zeroFields_initialSummary l
    · exact hr p h

theorem zeroFields_stats1 (M : List NetworkRequestMetric) (L : List MapLayer) :
    ∀ (r : List (String × LayerPerformanceSummary)),
      (∀ p ∈ r, zeroFields p.snd) →
      ∀ p ∈ M.foldl (binMetric L) r, zeroFields p.snd := by
  induction M with
  | nil => intro r hr; exact hr
  | cons m M ih =>
    intro r hr
    apply ih
    intro p hp
    unfold binMetric at hp
    split at hp
    · rename_i matchedLayer _
      cases hget : recordGet r matchedLayer.id with
      | none => rw [hget] at hp; exact hr p hp
      | some s =>
        rw [hget] at hp
        rcases recordSet_mem_cases hp with h | h
        · rcases recordGet_mem hget with ⟨q, hq, hqs⟩
          rw [h]
          exact zeroFields_addRequest (hqs ▸ hr q hq) m
        · exact hr p h
    · exact hr p hp

theorem calculateMetrics_zeroFields (L : List MapLayer)
    (M : List NetworkRequestMetric) :
    ∀ s ∈ calculateMetrics L M, zeroFields s := by
  intro s hs
  unfold calculateMetrics at hs
  simp only [List.map_map, List.mem_map] at hs
  rcases hs with ⟨p, hp, hps⟩
  have h1 := zeroFields_stats1 M L _
    (zeroFields_stats0 L [] (by intro p hp; cases hp)) p hp
  rw [← hps]
  exact zeroFields_applyLoadTime h1

theorem notifyListeners_sublist (unsubEffect : String → List String) :
    ∀ (pending deleted invoked : List String),
      List.Sublist (notifyListeners unsubEffect deleted invoked pending)
        (invoked ++ pending) := by
  intro pending
  induction pending with
  | nil => intro deleted invoked; simp [notifyListeners]
  | cons c pending ih =>
    intro deleted invoked
    simp only [notifyListeners]
    split
    · have h1 := ih deleted invoked
      have h2 : List.Sublist (invoked ++ pending) (invoked ++ c :: pending) :=
        List.Sublist.append_left (List.sublist_cons_self c pending) invoked
      exact h1.trans h2
    · have h1 := ih (deleted ++ unsubEffect c) (invoked ++ [c])
      have h2 : (invoked ++ [c]) ++ pending = invoked ++ c :: pending := by
        simp
      exact h2 ▸ h1

theorem notifyListeners_self_only (unsubEffect : String → List String) :
    ∀ (pending deleted invoked : List String), pending.Nodup →
      (∀ c ∈ pending, ∀ x ∈ unsubEffect c, x = c) →
      (∀ x ∈ pending, x ∉ deleted) →
      notifyListeners unsubEffect deleted invoked pending =
        invoked ++ pending := by
  intro pending
  induction pending with
  | nil => intro deleted invoked _ _ _; simp [notifyListeners]
  | cons c pending ih =>
    intro deleted invoked hN hself hdel
    simp only [notifyListeners]
    rw [if_neg (hdel c (List.mem_cons_self c pending))]
    rw [ih (deleted ++ unsubEffect c) (invoked ++ [c])
      (List.nodup_cons.mp hN).2
      (fun c2 hc2 => hself c2 (List.mem_cons_of_mem c hc2)) ?_]
    · simp
    · intro x hx
      intro hmem
      rcases List.mem_append.mp hmem with h | h
      · exact hdel x (List.mem_cons_of_mem c hx) h
      · have := hself c (List.mem_cons_self c pending) x h
        rw [this] at hx
        exact (List.nodup_cons.mp hN).1 hx

theorem waitForIdleLoop_busy (sig : IdleSignals) (timeout start : Nat)
    (hbusy : ∀ t, sig.viewUpdating t = true) :
    ∀ (fuel now : Nat), start ≤ now → start + timeout ≤ now + fuel →
      (waitForIdleLoop sig timeout start fuel now).fst = false ∧
        start + timeout ≤ (waitForIdleLoop sig timeout start fuel now).snd := by
  intro fuel
  induction fuel with
  | zero =>
    intro now h1 h2
    exact ⟨rfl, by simp only [waitForIdleLoop]; omega⟩
  | succ fuel ih =>
    intro now h1 h2
    by_cases hguard : now - start < timeout
    · have heq : waitForIdleLoop sig timeout start (fuel + 1) now =
          waitForIdleLoop sig timeout start fuel (now + 200) := by
        simp [waitForIdleLoop, hguard, hbusy (now + 200)]
      rw [heq]
      exact ih (now + 200) (by omega) (by omega)
    · have heq : waitForIdleLoop sig timeout start (fuel + 1) now =
          (false, now) := by
        simp [waitForIdleLoop, hguard]
      rw [heq]
      exact ⟨rfl, by omega⟩

theorem catchToOk_ok (o : Except String Unit) : catchToOk o = Except.ok () := by
  cases o <;> rfl

theorem promiseAll_ok (os : List (Except String Unit))
    (h : ∀ o ∈ os, o = Except.ok ()) : promiseAll os = Except.ok () := by
  unfold promiseAll
  induction os with
  | nil => rfl
  | cons o os ih =>
    have ho := h o (List.mem_cons_self o os)
    simp only [List.foldl_cons, ho]
    exact ih (fun x hx => h x (List.mem_cons_of_mem o hx))

theorem queryStepAction_ok (os : List (Except String Unit)) :
    queryStepAction os = Except.ok () := by
  apply promiseAll_ok
  intro o ho
  rcases List.mem_map.mp ho with ⟨x, _, hx⟩
  rw [← hx]
  exact catchToOk_ok x

theorem stepActionResult_query (env : BenchmarkEnv) (i : Nat)
    (step : BenchmarkStep) (h : step.action = StepAction.queryFeatures) :
    stepActionResult env i step = Except.ok () := by
  unfold stepActionResult
  rw [h]
  exact queryStepAction_ok _

theorem runLoopAux_ok_shape (L : List MapLayer) (env : BenchmarkEnv) :
    ∀ (steps : List BenchmarkStep) (i : Nat)
      (results : List BenchmarkStepResult),
      runLoopAux L env i steps = Except.ok results →
      results.map (fun r => (r.stepName, r.type)) =
        steps.map (fun s => (s.name, s.type)) := by
  intro steps
  induction steps with
  | nil =>
    intro i results h
    simp only [runLoopAux] at h
    cases h
    rfl
  | cons step rest ih =>
    intro i results h
    unfold runLoopAux at h
    cases ha : stepActionResult env i step with
    | error e => rw [ha] at h; cases h
    | ok _ =>
      rw [ha] at h
      cases ht : runLoopAux L env (i + 1) rest with
      | error e => rw [ht] at h; cases h
      | ok tail =>
        rw [ht] at h
        cases h
        simp only [List.map_cons, List.cons.injEq]
        exact ⟨by simp [stepResultFor], ih (i + 1) tail ht⟩

theorem runLoopAux_ok_of_nav_ok (L : List MapLayer) (env : BenchmarkEnv)
    (hnav : ∀ j, env.navOutcome j = Except.ok ()) :
    ∀ (steps : List BenchmarkStep) (i : Nat),
      ∃ results, runLoopAux L env i steps = Except.ok results ∧
        results.length = steps.length := by
  intro steps
  induction steps with
  | nil => intro i; exact ⟨[], rfl, rfl⟩
  | cons step rest ih =>
    intro i
    have ha : stepActionResult env i step = Except.ok () := by
      unfold stepActionResult
      cases hact : step.action with
      | navigate c z => exact hnav i
      | queryFeatures => exact queryStepAction_ok _
    rcases ih (i + 1) with ⟨tail, htail, hlen⟩
    refine ⟨stepResultFor L (env.stepMetrics i) step :: tail, ?_, by simp [hlen]⟩
    unfold runLoopAux
    rw [ha, htail]

theorem foldl_pickMin (score : String → ℚ) (L : List MapLayer) :
    ∀ init : String,
      (L.foldl (fun fid l => if score l.id < score fid then l.id else fid)
          init = init ∨
        L.foldl (fun fid l => if score l.id < score fid then l.id else fid)
          init ∈ L.map (fun l => l.id)) ∧
      score (L.foldl (fun fid l => if score l.id < score fid then l.id
        else fid) init) ≤ score init ∧
      ∀ l ∈ L, score (L.foldl (fun fid l => if score l.id < score fid
        then l.id else fid) init) ≤ score l.id := by
  induction L with
  | nil =>
    intro init
    exact ⟨Or.inl rfl, le_refl _, fun l hl => absurd hl (List.not_mem_nil l)⟩
  | cons l0 L ih =>
    intro init
    simp only [List.foldl_cons]
    by_cases hc : score l0.id < score init
    · rw [if_pos hc]
      rcases ih l0.id with ⟨hmem, hle, hall⟩
      refine ⟨?_, hle.trans hc.le, ?_⟩
      · rcases hmem with h | h
        · rw [h]
          exact Or.inr (by simp)
        · rcases List.mem_map.mp h with ⟨l2, hl2, hx⟩
          exact Or.inr (List.mem_map.mpr ⟨l2, List.mem_cons_of_mem l0 hl2, hx⟩)
      · intro l hl
        rcases List.mem_cons.mp hl with rfl | hl
        · exact hle
        · exact hall l hl
    · rw [if_neg hc]
      rcases ih init with ⟨hmem, hle, hall⟩
      refine ⟨?_, hle, ?_⟩
      · rcases hmem with h | h
        · exact Or.inl h
        · rcases List.mem_map.mp h with ⟨l2, hl2, hx⟩
          exact Or.inr (List.mem_map.mpr ⟨l2, List.mem_cons_of_mem l0 hl2, hx⟩)
      · intro l hl
        rcases List.mem_cons.mp hl with rfl | hl
        · exact hle.trans (not_lt.mp hc)
        · exact hall l hl

theorem foldl_pickMax (score : String → ℚ) (L : List MapLayer) :
    ∀ init : String,
      (L.foldl (fun sid l => if score sid < score l.id then l.id else sid)
          init = init ∨
        L.foldl (fun sid l => if score sid < score l.id then l.id else sid)
          init ∈ L.map (fun l => l.id)) ∧
      score init ≤ score (L.foldl (fun sid l => if score sid < score l.id
        then l.id else sid) init) ∧
      ∀ l ∈ L, score l.id ≤ score (L.foldl (fun sid l => if score sid <
        score l.id then l.id else sid) init) := by
  induction L with
  | nil =>
    intro init
    exact ⟨Or.inl rfl, le_refl _, fun l hl => absurd hl (List.not_mem_nil l)⟩
  | cons l0 L ih =>
    intro init
    simp only [List.foldl_cons]
    by_cases hc : score init < score l0.id
    · rw [if_pos hc]
      rcases ih l0.id with ⟨hmem, hle, hall⟩
      refine ⟨?_, hc.le.trans hle, ?_⟩
      · rcases hmem with h | h
        · rw [h]
          exact Or.inr (by simp)
        · rcases List.mem_map.mp h with ⟨l2, hl2, hx⟩
          exact Or.inr (List.mem_map.mpr ⟨l2, List.mem_cons_of_mem l0 hl2, hx⟩)
      · intro l hl
        rcases List.mem_cons.mp hl with rfl | hl
        · exact hle
        · exact hall l hl
    · rw [if_neg hc]
      rcases ih init with ⟨hmem, hle, hall⟩
      refine ⟨?_, hle, ?_⟩
      · rcases hmem with h | h
        · exact Or.inl h
        · rcases List.mem_map.mp h with ⟨l2, hl2, hx⟩
          exact Or.inr (List.mem_map.mpr ⟨l2, List.mem_cons_of_mem l0 hl2, hx⟩)
      · intro l hl
        rcases List.mem_cons.mp hl with rfl | hl
        · exact (not_lt.mp hc).trans hle
        · exact hall l hl

theorem buildReport_summary (L : List MapLayer)
    (results : List BenchmarkStepResult)
    (hN : (L.map (fun l => l.id)).Nodup) :
    (buildReport L results).summary =
      L.map (fun l => (l.id, layerBenchSummary results l)) := by
  unfold buildReport
  cases L with
  | nil => simp
  | cons l0 L =>
    simp only
    exact (foldl_recordSet_shape (l0 :: L) (layerBenchSummary results) []
      hN (by intro p hp; cases hp)).trans (by simp)

theorem buildReport_steps (L : List MapLayer)
    (results : List BenchmarkStepResult) :
    (buildReport L results).steps = results := by
  unfold buildReport
  cases L <;> rfl

theorem scoreAt_shape (L : List MapLayer)
    (g : MapLayer → LayerBenchSummary) (l0 : MapLayer)
    (hN : (L.map (fun l => l.id)).Nodup) (h0 : l0 ∈ L) :
    scoreAt (L.map (fun l => (l.id, g l))) l0.id = (g l0).score := by
  unfold scoreAt
  rw [recordGet_shape L g l0 hN h0]

theorem navTimeAt_shape (L : List MapLayer)
    (g : MapLayer → LayerBenchSummary) (l0 : MapLayer)
    (hN : (L.map (fun l => l.id)).Nodup) (h0 : l0 ∈ L) :
    navTimeAt (L.map (fun l => (l.id, g l))) l0.id = (g l0).avgNavLoadTime := by
  unfold navTimeAt
  rw [recordGet_shape L g l0 hN h0]

theorem layerBenchSummary_score (results : List BenchmarkStepResult)
    (l : MapLayer) :
    (layerBenchSummary results l).score =
      (layerBenchSummary results l).avgNavLoadTime := rfl

theorem summaryFor_totalDuration (L : List MapLayer)
    (M : List NetworkRequestMetric) (l : MapLayer) :
    (summaryFor L M l).totalDuration =
      ((attributedMetrics L M l).map (fun m => m.duration)).sum := by
  unfold summaryFor applyLoadTime
  have h := foldl_addRequest_totalDuration (attributedMetrics L M l)
    (initialSummary l)
  split <;> simpa [initialSummary] using h

theorem find?_first {α : Type} (p : α → Bool) :
    ∀ (L : List α) (a : α), L.find? p = some a →
      p a = true ∧ ∃ pre suf, L = pre ++ a :: suf ∧
        ∀ x ∈ pre, p x = false := by
  intro L
  induction L with
  | nil => intro a h; cases h
  | cons x L ih =>
    intro a h
    by_cases hx : p x = true
    · rw [List.find?_cons_of_pos _ hx] at h
      cases h
      exact ⟨hx, [], L, rfl, by intro y hy; cases hy⟩
    · have hx' : p x = false := by
        cases hpx : p x
        · rfl
        · exact absurd hpx hx
      rw [List.find?_cons_of_neg _ (by simp [hx'])] at h
      rcases ih a h with ⟨hpa, pre, suf, hL, hpre⟩
      refine ⟨hpa, x :: pre, suf, by rw [hL]; rfl, ?_⟩
      intro y hy
      rcases List.mem_cons.mp hy with rfl | hy
      · exact hx'
      · exact hpre y hy

/-- C1: for every batch and every tracked, non-excluded layer, the summary's
loadTime is the maximum matched end timestamp minus the minimum matched
start timestamp when at least one request matches and 0 otherwise; in
particular Scenario A yields requestCount 3 and loadTime 300. Stated under
the data-model invariant that tracked layer ids are distinct. -/
theorem C1_load_time :
    (∀ (L : List MapLayer) (M : List NetworkRequestMetric),
      (L.map (fun l => l.id)).Nodup →
      ∀ l ∈ L, ∃ s ∈ calculateMetrics L M,
        s.id = l.id ∧
        s.requestCount = (attributedMetrics L M l).length ∧
        (attributedMetrics L M l = [] → s.loadTime = 0) ∧
        (attributedMetrics L M l ≠ [] →
          s.loadTime = maxEndTime (attributedMetrics L M l) -
            minStartTime (attributedMetrics L M l))) ∧
    (∃ s ∈ calculateMetrics [scenarioALayer] scenarioAMetrics,
      s.requestCount = 3 ∧ s.loadTime = 300) := by
  constructor
  · intro L M hN l hl
    rw [calculateMetrics_eq L M hN]
    refine ⟨summaryFor L M l, List.mem_map.mpr ⟨l, hl, rfl⟩,
      summaryFor_id L M l, summaryFor_requestCount L M l,
      summaryFor_loadTime_empty L M l, summaryFor_loadTime_nonempty L M l⟩
  · have hN : (([scenarioALayer]).map (fun l => l.id)).Nodup := by decide
    rw [calculateMetrics_eq [scenarioALayer] scenarioAMetrics hN]
    have hatt : attributedMetrics [scenarioALayer] scenarioAMetrics
        scenarioALayer = scenarioAMetrics := by decide
    refine ⟨summaryFor [scenarioALayer] scenarioAMetrics scenarioALayer,
      List.mem_map.mpr ⟨scenarioALayer, by decide, rfl⟩, ?_, ?_⟩
    · rw [summaryFor_requestCount, hatt]
      rfl
    · rw [summaryFor_loadTime_nonempty _ _ _ (by rw [hatt]; decide), hatt]
      have h1 : maxEndTime scenarioAMetrics = 400 := by decide
      have h2 : minStartTime scenarioAMetrics = 100 := by decide
      rw [h1, h2]
      norm_num

/-- C1 witness at the Scenario A input. -/
theorem C1_load_time_witness :
    ∃ s ∈ calculateMetrics [scenarioALayer] scenarioAMetrics,
      s.id = scenarioALayer.id ∧
      s.requestCount =
        (attributedMetrics [scenarioALayer] scenarioAMetrics
          scenarioALayer).length ∧
      (attributedMetrics [scenarioALayer] scenarioAMetrics scenarioALayer =
          [] → s.loadTime = 0) ∧
      (attributedMetrics [scenarioALayer] scenarioAMetrics scenarioALayer ≠
          [] → s.loadTime = maxEndTime (attributedMetrics [scenarioALayer]
            scenarioAMetrics scenarioALayer) -
          minStartTime (attributedMetrics [scenarioALayer] scenarioAMetrics
            scenarioALayer)) :=
  C1_load_time.1 [scenarioALayer] scenarioAMetrics (by decide)
    scenarioALayer (by decide)

/-- C2: a request matches a layer iff the lowercased request URL contains
the lowercased layer URL as a substring; the request is counted by exactly
the first matching layer of the tracked list, and a request matching no
tracked layer contributes to no summary. -/
theorem C2_attribution :
    (∀ (m : NetworkRequestMetric) (l : MapLayer),
      urlMatches m l = true ↔ lowerChars l.url <:+: lowerChars m.url) ∧
    (∀ (L : List MapLayer) (M : List NetworkRequestMetric),
      (L.map (fun l => l.id)).Nodup → ∀ m ∈ M,
      (∀ l0, L.find? (fun l => urlMatches m l) = some l0 →
        urlMatches m l0 = true ∧
        (∃ pre suf, L = pre ++ l0 :: suf ∧
          ∀ l ∈ pre, urlMatches m l = false) ∧
        ∃ s ∈ calculateMetrics L M, s.id = l0.id ∧ m ∈ s.requests ∧
          ∀ s2 ∈ calculateMetrics L M, m ∈ s2.requests → s2 = s) ∧
      (L.find? (fun l => urlMatches m l) = none →
        ∀ s ∈ calculateMetrics L M, m ∉ s.requests)) := by
  constructor
  · intro m l
    exact charsContain_iff (lowerChars m.url) (lowerChars l.url)
  · intro L M hN m hm
    constructor
    · intro l0 hf
      rcases find?_first (fun l => urlMatches m l) L l0 hf with
        ⟨hmatch, pre, suf, hsplit, hpre⟩
      have hl0 : l0 ∈ L := List.mem_of_find?_eq_some hf
      refine ⟨hmatch, ⟨pre, suf, hsplit, hpre⟩, ?_⟩
      rw [calculateMetrics_eq L M hN]
      refine ⟨summaryFor L M l0, List.mem_map.mpr ⟨l0, hl0, rfl⟩,
        summaryFor_id L M l0, ?_, ?_⟩
      · rw [summaryFor_requests]
        exact List.mem_filter.mpr ⟨hm, by simp [attributedTo, hf]⟩
      · intro s2 hs2 hms2
        rcases List.mem_map.mp hs2 with ⟨l2, hl2, hs2eq⟩
        rw [← hs2eq] at hms2 ⊢
        rw [summaryFor_requests] at hms2
        have := (List.mem_filter.mp hms2).2
        simp only [attributedTo, hf, decide_eq_true_eq,
          Option.some.injEq] at this
        rw [this]
    · intro hf s hs hms
      rw [calculateMetrics_eq L M hN] at hs
      rcases List.mem_map.mp hs with ⟨l2, _, hs2eq⟩
      rw [← hs2eq] at hms
      rw [summaryFor_requests] at hms
      have := (List.mem_filter.mp hms).2
      simp [attributedTo, hf] at this

/-- C2 witness at the Scenario B input: the request to the longer URL is
attributed to exactly the first matching layer. -/
theorem C2_attribution_witness :
    urlMatches scenarioBMetric scenarioBLayerA = true ∧
    (∃ pre suf, [scenarioBLayerA, scenarioBLayerB] =
      pre ++ scenarioBLayerA :: suf ∧
      ∀ l ∈ pre, urlMatches scenarioBMetric l = false) ∧
    ∃ s ∈ calculateMetrics [scenarioBLayerA, scenarioBLayerB]
        [scenarioBMetric],
      s.id = scenarioBLayerA.id ∧ scenarioBMetric ∈ s.requests ∧
      ∀ s2 ∈ calculateMetrics [scenarioBLayerA, scenarioBLayerB]
          [scenarioBMetric],
        scenarioBMetric ∈ s2.requests → s2 = s :=
  (C2_attribution.2 [scenarioBLayerA, scenarioBLayerB] [scenarioBMetric]
    (by decide) scenarioBMetric (by decide)).1 scenarioBLayerA (by decide)

/-- C3 counterexample: a batch of two well-formed requests (end ≥ start for
each) separated by a gap produces a summary with requestCount 2 whose
loadTime (110) strictly exceeds its totalDuration (20), refuting the
claimed invariant loadTime ≤ totalDuration for requestCount > 1. -/
theorem C3_counterexample :
    (∀ m ∈ gapMetrics, m.startTime ≤ m.endTime) ∧
    ∃ s ∈ calculateMetrics [gapLayer] gapMetrics,
      1 < s.requestCount ∧ s.totalDuration < s.loadTime := by
  constructor
  · decide
  · have hN : (([gapLayer]).map (fun l => l.id)).Nodup := by decide
    rw [calculateMetrics_eq [gapLayer] gapMetrics hN]
    have hatt : attributedMetrics [gapLayer] gapMetrics gapLayer =
        gapMetrics := by decide
    refine ⟨summaryFor [gapLayer] gapMetrics gapLayer,
      List.mem_map.mpr ⟨gapLayer, by decide, rfl⟩, ?_, ?_⟩
    · rw [summaryFor_requestCount, hatt]
      decide
    · rw [summaryFor_totalDuration, summaryFor_loadTime_nonempty _ _ _
        (by rw [hatt]; decide), hatt]
      have h1 : maxEndTime gapMetrics = 110 := by decide
      have h2 : minStartTime gapMetrics = 0 := by decide
      rw [h1, h2]
      norm_num [gapMetrics]

/-- C3 amended: for batches of well-formed metrics (end ≥ start) and
tracked layers with distinct ids, requestCount = 0 forces loadTime = 0, and
with at least one matched request the loadTime is the wall-clock span
max end − min start, which is nonnegative; loadTime is not bounded by
totalDuration, and loadTime 0 does not force requestCount 0. -/
theorem C3_amended :
    ∀ (L : List MapLayer) (M : List NetworkRequestMetric),
      (L.map (fun l => l.id)).Nodup →
      (∀ m ∈ M, m.startTime ≤ m.endTime) →
      ∀ s ∈ calculateMetrics L M,
        (s.requestCount = 0 → s.loadTime = 0) ∧
        (0 < s.requestCount →
          s.loadTime = maxEndTime s.requests - minStartTime s.requests ∧
          0 ≤ s.loadTime) := by
  intro L M hN hWf s hs
  rw [calculateMetrics_eq L M hN] at hs
  rcases List.mem_map.mp hs with ⟨l, hl, hseq⟩
  rw [← hseq]
  rw [summaryFor_requestCount, summaryFor_requests]
  constructor
  · intro hcount
    exact summaryFor_loadTime_empty L M l (List.length_eq_zero.mp hcount)
  · intro hcount
    have hne : attributedMetrics L M l ≠ [] := by
      intro hemp
      rw [hemp] at hcount
      exact absurd hcount (by simp)
    have hload := summaryFor_loadTime_nonempty L M l hne
    refine ⟨hload, ?_⟩
    rw [hload]
    rcases List.exists_mem_of_ne_nil _ hne with ⟨m0, hm0⟩
    have hm0M : m0 ∈ M := (List.mem_filter.mp hm0).1
    have h1 : minStartTime (attributedMetrics L M l) ≤ m0.startTime :=
      minStartTime_le _ m0 hm0
    have h2 : m0.endTime ≤ maxEndTime (attributedMetrics L M l) :=
      le_maxEndTime _ m0 hm0
    have h3 := hWf m0 hm0M
    linarith

/-- C3 amended witness at the gap batch, at the produced summary. -/
theorem C3_amended_witness :
    ((summaryFor [gapLayer] gapMetrics gapLayer).requestCount = 0 →
      (summaryFor [gapLayer] gapMetrics gapLayer).loadTime = 0) ∧
    (0 < (summaryFor [gapLayer] gapMetrics gapLayer).requestCount →
      (summaryFor [gapLayer] gapMetrics gapLayer).loadTime =
        maxEndTime (summaryFor [gapLayer] gapMetrics gapLayer).requests -
          minStartTime (summaryFor [gapLayer] gapMetrics
            gapLayer).requests ∧
      0 ≤ (summaryFor [gapLayer] gapMetrics gapLayer).loadTime) :=
  C3_amended [gapLayer] gapMetrics (by decide) (by decide)
    (summaryFor [gapLayer] gapMetrics gapLayer)
    ((calculateMetrics_eq [gapLayer] gapMetrics (by decide)).symm ▸
      List.mem_map.mpr ⟨gapLayer, by decide, rfl⟩)

/-- C10: every summary the aggregator produces has avgLatency, totalSize
and errorCount equal to 0, for every batch and layer set: the aggregation
loop initializes and never updates these fields. -/
theorem C10_untouched_fields (L : List MapLayer)
    (M : List NetworkRequestMetric) :
    (calculateMetrics L M).all
      (fun s => decide (s.avgLatency = 0 ∧ s.totalSize = 0 ∧
        s.errorCount = 0)) = true := by
  rw [List.all_eq_true]
  intro s hs
  have h := calculateMetrics_zeroFields L M s hs
  simpa [zeroFields] using h

theorem runBenchmark_report_some {L : List MapLayer} {env : BenchmarkEnv}
    {st : BenchmarkState} {rep : BenchmarkReportData}
    (h : (runBenchmark L env st).benchmarkReport = some rep) :
    ∃ results, runLoopAux L env 0 allSteps = Except.ok results ∧
      rep = buildReport L results := by
  unfold runBenchmark at h
  cases hex : runBenchmarkExec L env with
  | error e =>
    rw [hex] at h
    simp at h
  | ok results =>
    rw [hex] at h
    simp only [Option.some.injEq] at h
    unfold runBenchmarkExec at hex
    cases hs : env.setupNav with
    | error e => rw [hs] at hex; cases hex
    | ok u => rw [hs] at hex; exact ⟨results, hex, h.symm⟩

/-- C4: every benchmark run that completes produces exactly 15 step results
in its report: first 10 of navigation type (cycling the fixed list of ten
named locations with zoom `10 + (i % 7)`), then 5 of query type, in that
fixed order, for every environment (hence regardless of timing variance). -/
theorem C4_step_sequence :
    (∀ (L : List MapLayer) (env : BenchmarkEnv) (st : BenchmarkState)
      (rep : BenchmarkReportData),
      (runBenchmark L env st).benchmarkReport = some rep →
      rep.steps.length = 15 ∧
      rep.steps.map (fun r => r.type) =
        List.replicate 10 StepType.nav ++ List.replicate 5 StepType.query ∧
      rep.steps.map (fun r => r.stepName) = allSteps.map (fun s => s.name)) ∧
    (allSteps.map (fun s => s.type) =
      List.replicate 10 StepType.nav ++ List.replicate 5 StepType.query) ∧
    (∀ i < 10, (allSteps.get? i).map (fun s => s.action) =
      some (StepAction.navigate
        ((TOWNS.getD (i % TOWNS.length)
          { name := "", center := (0, 0) }).center) (10 + i % 7))) ∧
    (∀ i, 10 ≤ i → i < 15 →
      (allSteps.get? i).map (fun s => s.action) =
        some StepAction.queryFeatures) := by
  have htypes : allSteps.map (fun s => s.type) =
      List.replicate 10 StepType.nav ++ List.replicate 5 StepType.query := by
    decide
  refine ⟨?_, htypes, ?_, ?_⟩
  · intro L env st rep h
    rcases runBenchmark_report_some h with ⟨results, hok, hrep⟩
    have hpair := runLoopAux_ok_shape L env allSteps 0 results hok
    have hsteps : rep.steps = results := by
      rw [hrep, buildReport_steps]
    have hnames : results.map (fun r => r.stepName) =
        allSteps.map (fun s => s.name) := by
      have := congrArg (List.map Prod.fst) hpair
      simpa [List.map_map, Function.comp] using this
    have htypes2 : results.map (fun r => r.type) =
        allSteps.map (fun s => s.type) := by
      have := congrArg (List.map Prod.snd) hpair
      simpa [List.map_map, Function.comp] using this
    refine ⟨?_, ?_, ?_⟩
    · have := congrArg List.length hnames
      simp only [List.length_map] at this
      rw [hsteps, this]
      decide
    · rw [hsteps, htypes2, htypes]
    · rw [hsteps, hnames]
  · intro i hi
    interval_cases i <;> rfl
  · intro i h1 h2
    interval_cases i <;> rfl

/-- C4 witness: a concrete successful run. -/
theorem C4_step_sequence_witness :
    emptyRunReport.steps.length = 15 ∧
    emptyRunReport.steps.map (fun r => r.type) =
      List.replicate 10 StepType.nav ++ List.replicate 5 StepType.query ∧
    emptyRunReport.steps.map (fun r => r.stepName) =
      allSteps.map (fun s => s.name) :=
  C4_step_sequence.1 [] emptyRunEnv pausedState emptyRunReport (by rfl)

theorem buildReport_rank (l0 : MapLayer) (Lr : List MapLayer)
    (results : List BenchmarkStepResult)
    (hN : ((l0 :: Lr).map (fun l => l.id)).Nodup) :
    ∃ fid sid,
      (buildReport (l0 :: Lr) results).fastestLayerId = some fid ∧
      (buildReport (l0 :: Lr) results).slowestLayerId = some sid ∧
      fid ∈ (l0 :: Lr).map (fun l => l.id) ∧
      sid ∈ (l0 :: Lr).map (fun l => l.id) ∧
      (∀ l ∈ l0 :: Lr,
        scoreAt (buildReport (l0 :: Lr) results).summary fid ≤
          scoreAt (buildReport (l0 :: Lr) results).summary l.id) ∧
      (∀ l ∈ l0 :: Lr,
        scoreAt (buildReport (l0 :: Lr) results).summary l.id ≤
          scoreAt (buildReport (l0 :: Lr) results).summary sid) ∧
      (buildReport (l0 :: Lr) results).percentFaster =
        (if 0 < scoreAt (buildReport (l0 :: Lr) results).summary fid then
          ((scoreAt (buildReport (l0 :: Lr) results).summary sid /
            scoreAt (buildReport (l0 :: Lr) results).summary fid) - 1) * 100
        else 0) := by
  have hSfold : (l0 :: Lr).foldl
      (fun acc l => recordSet acc l.id (layerBenchSummary results l)) [] =
      (l0 :: Lr).map (fun l => (l.id, layerBenchSummary results l)) := by
    have := foldl_recordSet_shape (l0 :: Lr) (layerBenchSummary results) []
      hN (by intro p hp; cases hp)
    simpa using this
  set S := (l0 :: Lr).map (fun l => (l.id, layerBenchSummary results l))
    with hSdef
  have hnav : ∀ x ∈ (l0 :: Lr).map (fun l => l.id),
      navTimeAt S x = scoreAt S x := by
    intro x hx
    rcases List.mem_map.mp hx with ⟨lx, hlx, hxid⟩
    rw [← hxid, navTimeAt_shape (l0 :: Lr) (layerBenchSummary results) lx
      hN hlx, scoreAt_shape (l0 :: Lr) (layerBenchSummary results) lx hN hlx,
      layerBenchSummary_score]
  simp only [buildReport, hSfold]
  rcases foldl_pickMin (scoreAt S) (l0 :: Lr) l0.id with
    ⟨hminMem, _, hminAll⟩
  rcases foldl_pickMax (scoreAt S) (l0 :: Lr) l0.id with
    ⟨hmaxMem, _, hmaxAll⟩
  have hl0id : l0.id ∈ (l0 :: Lr).map (fun l => l.id) :=
    List.mem_map.mpr ⟨l0, List.mem_cons_self l0 Lr, rfl⟩
  have hminMem2 : (l0 :: Lr).foldl
      (fun fid l => if scoreAt S l.id < scoreAt S fid then l.id else fid)
      l0.id ∈ (l0 :: Lr).map (fun l => l.id) := by
    rcases hminMem with h | h
    · rw [h]; exact hl0id
    · exact h
  have hmaxMem2 : (l0 :: Lr).foldl
      (fun sid l => if scoreAt S sid < scoreAt S l.id then l.id else sid)
      l0.id ∈ (l0 :: Lr).map (fun l => l.id) := by
    rcases hmaxMem with h | h
    · rw [h]; exact hl0id
    · exact h
  refine ⟨_, _, rfl, rfl, hminMem2, hmaxMem2, hminAll, hmaxAll, ?_⟩
  rw [hnav _ hminMem2, hnav _ hmaxMem2]

/-- C5: the ranking score of every layer is its average navigation load
time, the fastest layer attains the minimum score and the slowest the
maximum, and percentFaster is ((slowest/fastest) − 1) × 100 guarded to 0
when the fastest score is 0; Scenario D (A averages 1.0s, B averages 2.0s)
yields fastest A, slowest B, percentFaster 100. -/
theorem C5_ranking :
    (∀ (L : List MapLayer) (results : List BenchmarkStepResult),
      (L.map (fun l => l.id)).Nodup → L ≠ [] →
      (∀ l ∈ L, scoreAt (buildReport L results).summary l.id =
        (layerBenchSummary results l).avgNavLoadTime) ∧
      ∃ fid sid,
        (buildReport L results).fastestLayerId = some fid ∧
        (buildReport L results).slowestLayerId = some sid ∧
        fid ∈ L.map (fun l => l.id) ∧
        sid ∈ L.map (fun l => l.id) ∧
        (∀ l ∈ L, scoreAt (buildReport L results).summary fid ≤
          scoreAt (buildReport L results).summary l.id) ∧
        (∀ l ∈ L, scoreAt (buildReport L results).summary l.id ≤
          scoreAt (buildReport L results).summary sid) ∧
        (buildReport L results).percentFaster =
          (if 0 < scoreAt (buildReport L results).summary fid then
            ((scoreAt (buildReport L results).summary sid /
              scoreAt (buildReport L results).summary fid) - 1) * 100
          else 0)) ∧
    ((buildReport [scenarioDLayerA, scenarioDLayerB]
        scenarioDResults).fastestLayerId = some "bench-a" ∧
      (buildReport [scenarioDLayerA, scenarioDLayerB]
        scenarioDResults).slowestLayerId = some "bench-b" ∧
      (buildReport [scenarioDLayerA, scenarioDLayerB]
        scenarioDResults).percentFaster = 100 ∧
      (layerBenchSummary scenarioDResults scenarioDLayerA).avgNavLoadTime =
        1 ∧
      (layerBenchSummary scenarioDResults scenarioDLayerB).avgNavLoadTime =
        2) := by
  constructor
  · intro L results hN hne
    match L, hne with
    | l0 :: Lr, _ =>
      constructor
      · intro l hl
        rw [buildReport_summary (l0 :: Lr) results hN,
          scoreAt_shape (l0 :: Lr) (layerBenchSummary results) l hN hl,
          layerBenchSummary_score]
      · exact buildReport_rank l0 Lr results hN
  · have hd1 : decide (StepType.query = StepType.nav) = false := rfl
    have hd2 : decide (StepType.nav = StepType.nav) = true := rfl
    have hd3 : decide (StepType.nav = StepType.query) = false := rfl
    have hd4 : decide (StepType.query = StepType.query) = true := rfl
    have hs1 : decide ("bench-a" = "bench-b") = false := rfl
    have hs2 : decide ("bench-b" = "bench-a") = false := rfl
    have hs3 : decide ("bench-a" = "bench-a") = true := rfl
    have hs4 : decide ("bench-b" = "bench-b") = true := rfl
    have hA : layerBenchSummary scenarioDResults scenarioDLayerA =
        scenarioDSummaryA := by
      norm_num [layerBenchSummary, scenarioDResults, scenarioDNavResult,
        scenarioDQueryResult, stepLayerMetric, recordGet, scenarioDLayerA,
        scenarioDSummaryA, List.filter, List.find?, hd1, hd2, hd3, hd4,
        hs1, hs2, hs3, hs4]
    have hB : layerBenchSummary scenarioDResults scenarioDLayerB =
        scenarioDSummaryB := by
      norm_num [layerBenchSummary, scenarioDResults, scenarioDNavResult,
        scenarioDQueryResult, stepLayerMetric, recordGet, scenarioDLayerB,
        scenarioDSummaryB, List.filter, List.find?, hd1, hd2, hd3, hd4,
        hs1, hs2, hs3, hs4]
    have hidA : scenarioDLayerA.id = "bench-a" := rfl
    have hidB : scenarioDLayerB.id = "bench-b" := rfl
    have hfold : [scenarioDLayerA, scenarioDLayerB].foldl
        (fun acc l => recordSet acc l.id
          (layerBenchSummary scenarioDResults l)) [] =
        [("bench-a", scenarioDSummaryA), ("bench-b", scenarioDSummaryB)] := by
      simp only [List.foldl_cons, List.foldl_nil, hA, hB, hidA, hidB]
      simp [recordSet, hs1, hs2, hs3, hs4]
    refine ⟨?_, ?_, ?_, by rw [hA]; rfl, by rw [hB]; rfl⟩ <;>
      norm_num [buildReport, hfold, hidA, hidB, hA, hB, scoreAt, navTimeAt,
        recordGet, scenarioDSummaryA, scenarioDSummaryB, List.find?,
        hs1, hs2, hs3, hs4]

/-- C5 witness at the Scenario D inputs. -/
theorem C5_ranking_witness :
    (∀ l ∈ [scenarioDLayerA, scenarioDLayerB],
      scoreAt (buildReport [scenarioDLayerA, scenarioDLayerB]
        scenarioDResults).summary l.id =
        (layerBenchSummary scenarioDResults l).avgNavLoadTime) ∧
    ∃ fid sid,
      (buildReport [scenarioDLayerA, scenarioDLayerB]
        scenarioDResults).fastestLayerId = some fid ∧
      (buildReport [scenarioDLayerA, scenarioDLayerB]
        scenarioDResults).slowestLayerId = some sid ∧
      fid ∈ [scenarioDLayerA, scenarioDLayerB].map (fun l => l.id) ∧
      sid ∈ [scenarioDLayerA, scenarioDLayerB].map (fun l => l.id) ∧
      (∀ l ∈ [scenarioDLayerA, scenarioDLayerB],
        scoreAt (buildReport [scenarioDLayerA, scenarioDLayerB]
          scenarioDResults).summary fid ≤
        scoreAt (buildReport [scenarioDLayerA, scenarioDLayerB]
          scenarioDResults).summary l.id) ∧
      (∀ l ∈ [scenarioDLayerA, scenarioDLayerB],
        scoreAt (buildReport [scenarioDLayerA, scenarioDLayerB]
          scenarioDResults).summary l.id ≤
        scoreAt (buildReport [scenarioDLayerA, scenarioDLayerB]
          scenarioDResults).summary sid) ∧
      (buildReport [scenarioDLayerA, scenarioDLayerB]
        scenarioDResults).percentFaster =
        (if 0 < scoreAt (buildReport [scenarioDLayerA, scenarioDLayerB]
            scenarioDResults).summary fid then
          ((scoreAt (buildReport [scenarioDLayerA, scenarioDLayerB]
              scenarioDResults).summary sid /
            scoreAt (buildReport [scenarioDLayerA, scenarioDLayerB]
              scenarioDResults).summary fid) - 1) * 100
        else 0) :=
  C5_ranking.1 [scenarioDLayerA, scenarioDLayerB] scenarioDResults
    (by decide) (by decide)

/-- C6: `waitForIdle(T)` against a view busy signal that is true at every
poll returns false, and the return happens at elapsed time at least `T`,
never earlier. -/
theorem C6_idle_timeout :
    ∀ (sig : IdleSignals) (timeout start : Nat),
      (∀ t, sig.viewUpdating t = true) →
      (waitForIdle sig timeout start).fst = false ∧
        start + timeout ≤ (waitForIdle sig timeout start).snd :=
  fun sig timeout start hbusy =>
    waitForIdleLoop_busy sig timeout start hbusy (timeout + 1) start
      (le_refl start) (by omega)

/-- C6 witness: a permanently busy view with a 15000ms timeout. -/
theorem C6_idle_timeout_witness :
    (waitForIdle alwaysBusySignals 15000 0).fst = false ∧
    0 + 15000 ≤ (waitForIdle alwaysBusySignals 15000 0).snd :=
  C6_idle_timeout alwaysBusySignals 15000 0 (fun _ => rfl)

/-- C7 counterexample: `runBenchmark` clears the stored report at the start
of the run (`setBenchmarkReport(null)`), so after a run that fails in the
setup navigation the previously stored report is gone, not preserved. -/
theorem C7_counterexample :
    stateWithReport.benchmarkReport = some dummyReport ∧
    runBenchmarkExec [] failingEnv = Except.error "setup goTo rejected" ∧
    (runBenchmark [] failingEnv stateWithReport).benchmarkReport ≠
      some dummyReport ∧
    (runBenchmark [] failingEnv stateWithReport).benchmarkReport = none := by
  refine ⟨rfl, rfl, ?_, rfl⟩
  decide

/-- C7 amended: a failed benchmark run produces no new report, and the
stored report after the failed run is `none` — the report slot was cleared
at run start, so a previously stored report is not preserved; the running
flag is cleared and the prior recording state restored. -/
theorem C7_amended :
    ∀ (L : List MapLayer) (env : BenchmarkEnv) (st : BenchmarkState)
      (e : String),
      runBenchmarkExec L env = Except.error e →
      (runBenchmark L env st).benchmarkReport = none ∧
      (runBenchmark L env st).isRunningBenchmark = false ∧
      (runBenchmark L env st).isRecording = st.isRecording := by
  intro L env st e h
  unfold runBenchmark
  rw [h]
  exact ⟨rfl, rfl, rfl⟩

/-- C7 amended witness at the failing setup environment. -/
theorem C7_amended_witness :
    (runBenchmark [] failingEnv stateWithReport).benchmarkReport = none ∧
    (runBenchmark [] failingEnv stateWithReport).isRunningBenchmark =
      false ∧
    (runBenchmark [] failingEnv stateWithReport).isRecording =
      stateWithReport.isRecording :=
  C7_amended [] failingEnv stateWithReport "setup goTo rejected" (by rfl)

/-- C8 counterexample: a navigation step whose `goTo` promise rejects is
not caught at the step-action level — the rejection propagates and aborts
the whole run, so no step results survive and no report is produced. -/
theorem C8_counterexample :
    navFailEnv.setupNav = Except.ok () ∧
    runBenchmarkExec [] navFailEnv = Except.error "goTo rejected" ∧
    (runBenchmark [] navFailEnv pausedState).benchmarkReport = none := by
  refine ⟨rfl, ?_, ?_⟩ <;> rfl

/-- C8 amended: per-layer query rejections are caught locally (every query
promise carries a catch), so a query step's action never rejects and a run
whose setup and navigation promises all resolve completes with all 15 step
results regardless of query failures; navigation-step rejections are not
caught at the step level and abort the run (see the counterexample). -/
theorem C8_amended :
    (∀ (env : BenchmarkEnv) (i : Nat) (step : BenchmarkStep),
      step.action = StepAction.queryFeatures →
      stepActionResult env i step = Except.ok ()) ∧
    (∀ (L : List MapLayer) (env : BenchmarkEnv) (st : BenchmarkState),
      env.setupNav = Except.ok () →
      (∀ j, env.navOutcome j = Except.ok ()) →
      ∃ rep, (runBenchmark L env st).benchmarkReport = some rep ∧
        rep.steps.length = 15) := by
  constructor
  · intro env i step h
    exact stepActionResult_query env i step h
  · intro L env st hsetup hnav
    rcases runLoopAux_ok_of_nav_ok L env hnav allSteps 0 with
      ⟨results, hok, hlen⟩
    have hexec : runBenchmarkExec L env = Except.ok results := by
      unfold runBenchmarkExec
      rw [hsetup]
      exact hok
    refine ⟨buildReport L results, ?_, ?_⟩
    · unfold runBenchmark
      rw [hexec]
    · rw [buildReport_steps, hlen]
      decide

/-- C8 amended witness: all queries rejecting, run still completes. -/
theorem C8_amended_witness :
    ∃ rep, (runBenchmark [] queryFailEnv pausedState).benchmarkReport =
      some rep ∧ rep.steps.length = 15 :=
  C8_amended.2 [] queryFailEnv pausedState (by rfl) (fun j => rfl)

/-- C9 counterexample: callback A unsubscribing listener B during the
publish removes B from the current dispatch pass — B was subscribed when
the publish began but is not invoked. -/
theorem C9_counterexample :
    publishDispatch crossUnsub ["A", "B"] = ["A"] ∧
    "B" ∈ ["A", "B"] ∧
    "B" ∉ publishDispatch crossUnsub ["A", "B"] := by
  refine ⟨rfl, by decide, by decide⟩

/-- C9 amended: unsubscribing during a publish never throws (dispatch is a
total function); the invoked callbacks are always a subsequence of the
subscription-ordered listener list (each invoked at most once, in order);
and when callbacks only unsubscribe themselves — the returned-unsubscriber
usage — every listener subscribed at publish start is invoked exactly once.
Unsubscribing a not-yet-visited listener removes it from the current pass. -/
theorem C9_dispatch :
    (∀ (unsubEffect : String → List String) (listeners : List String),
      List.Sublist (publishDispatch unsubEffect listeners) listeners) ∧
    (∀ (unsubEffect : String → List String) (listeners : List String),
      listeners.Nodup →
      (∀ c ∈ listeners, ∀ x ∈ unsubEffect c, x = c) →
      publishDispatch unsubEffect listeners = listeners) := by
  constructor
  · intro unsubEffect listeners
    simpa using notifyListeners_sublist unsubEffect listeners [] []
  · intro unsubEffect listeners hN hself
    have := notifyListeners_self_only unsubEffect listeners [] [] hN hself
      (by intro x _ hx; cases hx)
    simpa using this

/-- C9 witness: self-only unsubscription delivers to every listener. -/
theorem C9_dispatch_witness :
    publishDispatch selfUnsub ["A", "B"] = ["A", "B"] :=
  C9_dispatch.2 selfUnsub ["A", "B"] (by decide) (by decide)

end GeoPerf
